import Mathlib

/-!
Verification of the rtcrtc signaling relay server.

The source is a socket.io signaling server kept in three near-duplicate
variants: `src/index.js` (the unvalidated variant, suffix `_A` below),
the first document of `src/unnamed/part_000` (the validated variant,
suffix `_B`), and the second document of `src/unnamed/part_000`
(the array/Redis variant, suffix `Arr`).

Shallow embedding conventions:
- A JS `Map` is an insertion-ordered association list `List (String × α)`;
  `Map.set` replaces the value at the first occurrence of the key in place
  or appends a fresh entry (`jsMapSet`), `Map.get` is `jsMapGet`,
  `Map.delete` is `jsMapDelete` (a JS Map never holds a duplicate key, so
  removing every occurrence coincides with removing the one entry on every
  list that represents a Map).
- A room's membership is a JS `Set` into which the handlers insert freshly
  allocated objects; since a fresh object is never reference-equal to an
  existing element, `Set.add` is modelled as appending to the list of
  members, and the `forEach` + `delete` sweeps (which visit and delete
  every matching element) as removal of all matching entries.
- Opaque client payloads (offers, answers, ICE candidates, room userInfo)
  are `String`s; the server never inspects them.
- Emitting is modelled by returning the list of `(Dest, Event)` pairs in
  emission order; `io.emit` is `Dest.broadcast`, `io.to(c).emit` and
  `socket.emit` are `Dest.toConn`, and `socket.to(roomId).emit` (delivery
  to the socket.io room excluding the sender, a transport-layer concern)
  is the symbolic `Dest.roomExceptSender`.
- JS truthiness on the string fields the code guards with `if (x)` or
  `x ? _ : _` is modelled as `x ≠ ""` (both `undefined` and `""` are
  falsy; both are collapsed onto the empty string).
- `socket.join` / `socket.leave` and `console.log` only touch the
  transport layer / logging and carry no registry or room-map state —
  except that a template literal dereferencing a field of an absent
  object throws a TypeError that aborts the handler before it emits or
  mutates anything; `index.js`'s `call-user` logs `callerInfo.username`
  before any lookup, so that crash path is part of the model (the `none`
  result of `callUser_A`).
- `socket.userId = userId` in the register handlers is written but never
  read anywhere in the source, so it is not part of the state.
-/

namespace RTC

/-- A presence-registry row: `{ userId, username, socketId }`. -/
structure User where
  userId : String
  username : String
  socketId : String
deriving DecidableEq, Repr

/-- A room-membership entry: `{ socketId, userInfo }`. -/
structure Member where
  socketId : String
  userInfo : String
deriving DecidableEq, Repr

/-- The `callerInfo` object of a `call-user` message: `{ id, username }`. -/
structure CallerInfo where
  id : String
  username : String
deriving DecidableEq, Repr

/-- Where an emission is addressed. -/
inductive Dest where
  | toConn (socketId : String)
  | broadcast
  | roomExceptSender (roomId : String) (sender : String)
deriving DecidableEq, Repr

/-- The events the server emits, with their payloads. -/
inductive Event where
  | usersUpdated (snapshot : List User)
  | incomingCall (caller : Option CallerInfo) (offer : String) (callId : String)
  | callInitiated (targetUsername : String) (targetId : String)
  | callFailed (error : String) (targetUserId : Option String)
  | callAnswered (answer : String) (userInfo : String)
  | callRejected
  | callEnded
  | iceCandidateEv (candidate : String) (fromSocketId : String)
  | userJoined (socketId : String) (userInfo : String)
  | roomMembersEv (members : List Member)
  | userLeft (socketId : String)
  | roomOfferEv (offer : String) (callerSocketId : String)
  | roomAnswerEv (answer : String)
  | roomIceCandidateEv (candidate : String)
deriving DecidableEq, Repr

/-- JS `Map.get`. -/
def jsMapGet (m : List (String × α)) (k : String) : Option α :=
  match m with
  | [] => none
  | (k', v) :: rest => if k' = k then some v else jsMapGet rest k

/-- JS `Map.set`: update in place at the first occurrence of the key,
append otherwise. -/
def jsMapSet (m : List (String × α)) (k : String) (v : α) : List (String × α) :=
  match m with
  | [] => [(k, v)]
  | (k', v') :: rest =>
    if k' = k then (k, v) :: rest else (k', v') :: jsMapSet rest k v

/-- JS `Map.delete`. -/
def jsMapDelete (m : List (String × α)) (k : String) : List (String × α) :=
  match m with
  | [] => []
  | (k', v) :: rest =>
    if k' = k then jsMapDelete rest k else (k', v) :: jsMapDelete rest k

/-- The keys of a JS map. -/
def jsMapKeys (m : List (String × α)) : List String := m.map Prod.fst

/-- The `forEach` + `delete` sweep removing every member with the given
socket id from a room's membership set. -/
def removeMember (ms : List Member) (c : String) : List Member :=
  match ms with
  | [] => []
  | m :: rest =>
    if m.socketId = c then removeMember rest c else m :: removeMember rest c

/-- How many membership entries carry the given socket id. -/
def countMember (ms : List Member) (c : String) : Nat :=
  match ms with
  | [] => 0
  | m :: rest => (if m.socketId = c then 1 else 0) + countMember rest c

/-- The mutable server state shared by the handlers of `index.js` and of
the validated variant: `users`, `socketToUser` and `rooms`. -/
structure ServerState where
  users : List (String × User)
  socketToUser : List (String × String)
  rooms : List (String × List Member)
deriving DecidableEq, Repr

/-- The state before any connection: three empty maps. -/
def ServerState.empty : ServerState := ⟨[], [], []⟩

/-- `Array.from(users.values())`, the full presence snapshot that is
broadcast on every registration and disconnection. -/
def snapshot (st : ServerState) : List User := st.users.map Prod.snd

/-- The `register-user` handler (identical in `index.js` and in the
validated variant): upsert the user row, record the reverse mapping and
broadcast the full snapshot. -/
def registerUser (st : ServerState) (socketId userId username : String) :
    ServerState × List (Dest × Event) :=
  let users' := jsMapSet st.users userId ⟨userId, username, socketId⟩
  let socketToUser' := jsMapSet st.socketToUser socketId userId
  let st' := { st with users := users', socketToUser := socketToUser' }
  (st', [(Dest.broadcast, Event.usersUpdated (snapshot st'))])

/-- The `call-user` handler of `index.js`. Its first statement is
`` console.log(`From: ${callerInfo.username} (${callerInfo.id})`) ``, so
when the message carries no `callerInfo` object the handler throws a
TypeError there — before the registry lookup — emitting nothing and
changing no state: that crash path is the `none` result. With
`callerInfo` present the handler performs no validation of its fields
(a missing field stringifies harmlessly in the template literal): it
resolves the target and relays, or reports `call-failed` to the caller. -/
def callUser_A (st : ServerState) (socketId targetUserId : String)
    (callerInfo : Option CallerInfo) (offer : String) :
    Option (ServerState × List (Dest × Event)) :=
  match callerInfo with
  | none => none
  | some ci =>
    match jsMapGet st.users targetUserId with
    | some targetUser =>
      some (st, [(Dest.toConn targetUser.socketId,
               Event.incomingCall (some ci) offer socketId),
            (Dest.toConn socketId,
               Event.callInitiated targetUser.username targetUser.userId)])
    | none =>
      some (st, [(Dest.toConn socketId,
               Event.callFailed "User not found or offline"
                 (some targetUserId))])

/-- The validated variant's guard
`!callerInfo || !callerInfo.id || !callerInfo.username`
(`undefined` and `""` are both falsy). -/
def validCallerInfo : Option CallerInfo → Bool
  | none => false
  | some ci => !(ci.id = "" : Bool) && !(ci.username = "" : Bool)

/-- The `call-user` handler of the validated variant: reject invalid
`callerInfo` first (the failure reply carries no `targetUserId`), then
resolve and relay as in `index.js`. -/
def callUser_B (st : ServerState) (socketId targetUserId : String)
    (callerInfo : Option CallerInfo) (offer : String) :
    ServerState × List (Dest × Event) :=
  if validCallerInfo callerInfo then
    match jsMapGet st.users targetUserId with
    | some targetUser =>
      (st, [(Dest.toConn targetUser.socketId,
               Event.incomingCall callerInfo offer socketId),
            (Dest.toConn socketId,
               Event.callInitiated targetUser.username targetUser.userId)])
    | none =>
      (st, [(Dest.toConn socketId,
               Event.callFailed "Target user not found or offline."
                 (some targetUserId))])
  else
    (st, [(Dest.toConn socketId,
             Event.callFailed "Invalid caller information." none)])

/-- The `answer-call` handler: relay `{answer, userInfo}` to `callId`. -/
def answerCall (st : ServerState) (callId answer userInfo : String) :
    ServerState × List (Dest × Event) :=
  (st, [(Dest.toConn callId, Event.callAnswered answer userInfo)])

/-- The `reject-call` handler: relay a bare `call-rejected` to `callId`. -/
def rejectCall (st : ServerState) (callId : String) :
    ServerState × List (Dest × Event) :=
  (st, [(Dest.toConn callId, Event.callRejected)])

/-- The `end-call` handler of `index.js`: relay `call-ended` only when
`targetSocketId` is truthy. -/
def endCall_A (st : ServerState) (targetSocketId : String) :
    ServerState × List (Dest × Event) :=
  (st, if targetSocketId = "" then []
       else [(Dest.toConn targetSocketId, Event.callEnded)])

/-- The `ice-candidate` handler of `index.js`: relay the candidate plus
the sender's socket id when `targetSocketId` is truthy. -/
def iceCandidate_A (st : ServerState) (socketId targetSocketId candidate : String) :
    ServerState × List (Dest × Event) :=
  (st, if targetSocketId = "" then []
       else [(Dest.toConn targetSocketId,
                Event.iceCandidateEv candidate socketId)])

/-- The `join-room` handler: append a freshly allocated membership object
to the room's `Set` (creating the room if absent), notify the other room
members, and reply to the joiner with the membership excluding every
entry carrying its own socket id. -/
def joinRoom (st : ServerState) (socketId roomId userInfo : String) :
    ServerState × List (Dest × Event) :=
  let members := (jsMapGet st.rooms roomId).getD []
  let members' := members ++ [⟨socketId, userInfo⟩]
  let st' := { st with rooms := jsMapSet st.rooms roomId members' }
  (st', [(Dest.roomExceptSender roomId socketId,
            Event.userJoined socketId userInfo),
         (Dest.toConn socketId,
            Event.roomMembersEv (removeMember members' socketId))])

/-- The `leave-room` handler (same in both variants): when the room key
exists, sweep out the matching membership entries and emit `user-left`
to the room unconditionally; otherwise do nothing. -/
def leaveRoom (st : ServerState) (socketId roomId : String) :
    ServerState × List (Dest × Event) :=
  match jsMapGet st.rooms roomId with
  | none => (st, [])
  | some members =>
    ({ st with rooms := jsMapSet st.rooms roomId (removeMember members socketId) },
     [(Dest.roomExceptSender roomId socketId, Event.userLeft socketId)])

/-- The `room-offer` handler: relay `{offer, callerSocketId}`. -/
def roomOffer (st : ServerState) (socketId targetSocketId offer : String) :
    ServerState × List (Dest × Event) :=
  (st, [(Dest.toConn targetSocketId, Event.roomOfferEv offer socketId)])

/-- The `room-answer` handler: relay `{answer}` (no sender id). -/
def roomAnswer (st : ServerState) (socketId targetSocketId answer : String) :
    ServerState × List (Dest × Event) :=
  (st, [(Dest.toConn targetSocketId, Event.roomAnswerEv answer)])

/-- The `room-ice-candidate` handler: relay `{candidate}` (no sender id). -/
def roomIceCandidate (st : ServerState) (socketId targetSocketId candidate : String) :
    ServerState × List (Dest × Event) :=
  (st, [(Dest.toConn targetSocketId, Event.roomIceCandidateEv candidate)])

/-- The disconnect sweep over `rooms`: every room keeps only the members
whose socket id differs from the disconnected one. -/
def sweepRooms (roomsL : List (String × List Member)) (c : String) :
    List (String × List Member) :=
  match roomsL with
  | [] => []
  | (rid, ms) :: rest => (rid, removeMember ms c) :: sweepRooms rest c

/-- The `user-left` emissions of the disconnect sweep: one per removed
membership entry, in room insertion order. -/
def sweepEvents (roomsL : List (String × List Member)) (c : String) :
    List (Dest × Event) :=
  match roomsL with
  | [] => []
  | (rid, ms) :: rest =>
    List.replicate (countMember ms c)
        (Dest.roomExceptSender rid c, Event.userLeft c)
      ++ sweepEvents rest c

/-- The `disconnect` handler of `index.js`: look up the user bound to the
socket (`userId ? users.get(userId) : null`, so an empty `userId` is
falsy and skips the row deletion), delete the row if found, always delete
the reverse mapping, sweep every room, and finally broadcast the updated
snapshot unconditionally. -/
def disconnect_A (st : ServerState) (socketId : String) :
    ServerState × List (Dest × Event) :=
  let users' :=
    match jsMapGet st.socketToUser socketId with
    | some userId =>
      if userId = "" then st.users
      else
        match jsMapGet st.users userId with
        | some _ => jsMapDelete st.users userId
        | none => st.users
    | none => st.users
  let socketToUser' := jsMapDelete st.socketToUser socketId
  let st' : ServerState :=
    { users := users', socketToUser := socketToUser',
      rooms := sweepRooms st.rooms socketId }
  (st', sweepEvents st.rooms socketId
          ++ [(Dest.broadcast, Event.usersUpdated (snapshot st'))])

/-- The `disconnect` handler of the validated variant: both deletions are
guarded by `if (userId)`; the room sweep and the unconditional final
broadcast are the same as in `index.js`. -/
def disconnect_B (st : ServerState) (socketId : String) :
    ServerState × List (Dest × Event) :=
  let p :=
    match jsMapGet st.socketToUser socketId with
    | some userId =>
      if userId = "" then (st.users, st.socketToUser)
      else (jsMapDelete st.users userId, jsMapDelete st.socketToUser socketId)
    | none => (st.users, st.socketToUser)
  let st' : ServerState :=
    { users := p.1, socketToUser := p.2, rooms := sweepRooms st.rooms socketId }
  (st', sweepEvents st.rooms socketId
          ++ [(Dest.broadcast, Event.usersUpdated (snapshot st'))])

/-- A row of the array/Redis variant's `connectedUsers`:
`{ id, username, socketId }`. -/
structure UserA where
  id : String
  username : String
  socketId : String
deriving DecidableEq, Repr

/-- `connectedUsers.findIndex(u => u.id === userId)` followed by reading
the element: the first row with the given id. -/
def findUserA (users : List UserA) (u : String) : Option UserA :=
  match users with
  | [] => none
  | x :: rest => if x.id = u then some x else findUserA rest u

/-- `connectedUsers[existingUserIndex].socketId = socket.id`: update the
socket id of the first row with the given id, leaving its username. -/
def setSocketFirst (users : List UserA) (u c : String) : List UserA :=
  match users with
  | [] => []
  | x :: rest =>
    if x.id = u then { x with socketId := c } :: rest
    else x :: setSocketFirst rest u c

/-- The `register-user` handler of the array/Redis variant: update the
existing row's socket id if the id is present, push a new row otherwise. -/
def registerArr (users : List UserA) (socketId userId username : String) :
    List UserA :=
  if (findUserA users userId).isSome then setSocketFirst users userId socketId
  else users ++ [⟨userId, username, socketId⟩]

/-! ### Basic lemmas about the JS map model -/

theorem jsMapGet_set_self (m : List (String × α)) (k : String) (v : α) :
    jsMapGet (jsMapSet m k v) k = some v := by
  induction m with
  | nil => simp [jsMapSet, jsMapGet]
  | cons p rest ih =>
    by_cases h : p.1 = k
    · simp [jsMapSet, jsMapGet, h]
    · simpa [jsMapSet, jsMapGet, h] using ih

theorem jsMapGet_set_ne (m : List (String × α)) (k k' : String) (v : α)
    (h : k' ≠ k) : jsMapGet (jsMapSet m k v) k' = jsMapGet m k' := by
  have hne : ¬ k = k' := fun e => h e.symm
  induction m with
  | nil => simp [jsMapSet, jsMapGet, hne]
  | cons p rest ih =>
    by_cases hp : p.1 = k
    · simp [jsMapSet, jsMapGet, hp, hne]
    · simp [jsMapSet, jsMapGet, hp, ih]

theorem mem_jsMapKeys_set (m : List (String × α)) (k x : String) (v : α) :
    x ∈ jsMapKeys (jsMapSet m k v) ↔ x ∈ jsMapKeys m ∨ x = k := by
  induction m with
  | nil => simp [jsMapSet, jsMapKeys]
  | cons p rest ih =>
    by_cases hp : p.1 = k
    · simp [jsMapSet, jsMapKeys, hp] at *
      tauto
    · simp [jsMapSet, jsMapKeys, hp] at *
      tauto

theorem jsMapKeys_set_nodup (m : List (String × α)) (k : String) (v : α)
    (h : (jsMapKeys m).Nodup) : (jsMapKeys (jsMapSet m k v)).Nodup := by
  induction m with
  | nil => simp [jsMapSet, jsMapKeys]
  | cons p rest ih =>
    rw [show jsMapKeys (p :: rest) = p.1 :: jsMapKeys rest from rfl,
      List.nodup_cons] at h
    by_cases hp : p.1 = k
    · rw [show jsMapSet (p :: rest) k v = if p.1 = k then (k, v) :: rest
          else p :: jsMapSet rest k v from rfl, if_pos hp,
        show jsMapKeys ((k, v) :: rest) = k :: jsMapKeys rest from rfl,
        List.nodup_cons]
      exact ⟨hp ▸ h.1, h.2⟩
    · rw [show jsMapSet (p :: rest) k v = if p.1 = k then (k, v) :: rest
          else p :: jsMapSet rest k v from rfl, if_neg hp,
        show jsMapKeys (p :: jsMapSet rest k v)
          = p.1 :: jsMapKeys (jsMapSet rest k v) from rfl,
        List.nodup_cons]
      refine ⟨fun hmem => ?_, ih h.2⟩
      rcases (mem_jsMapKeys_set rest k p.1 v).mp hmem with h1 | h2
      · exact h.1 h1
      · exact hp h2

theorem jsMapDelete_sublist (m : List (String × α)) (k : String) :
    (jsMapDelete m k).Sublist m := by
  induction m with
  | nil => simp [jsMapDelete]
  | cons p rest ih =>
    by_cases hp : p.1 = k
    · simpa [jsMapDelete, hp] using ih.cons p
    · simpa [jsMapDelete, hp] using ih.cons₂ p

theorem jsMapKeys_delete_nodup (m : List (String × α)) (k : String)
    (h : (jsMapKeys m).Nodup) : (jsMapKeys (jsMapDelete m k)).Nodup :=
  List.Nodup.sublist ((jsMapDelete_sublist m k).map Prod.fst) h

theorem jsMapGet_eq_none (m : List (String × α)) (k : String)
    (h : ∀ p ∈ m, p.1 ≠ k) : jsMapGet m k = none := by
  induction m with
  | nil => rfl
  | cons p rest ih =>
    have hp := h p (List.mem_cons_self p rest)
    simp only [jsMapGet, if_neg hp]
    exact ih fun q hq => h q (List.mem_cons_of_mem p hq)

theorem jsMapDelete_eq_self (m : List (String × α)) (k : String)
    (h : ∀ p ∈ m, p.1 ≠ k) : jsMapDelete m k = m := by
  induction m with
  | nil => rfl
  | cons p rest ih =>
    have hp := h p (List.mem_cons_self p rest)
    simp only [jsMapDelete, if_neg hp]
    exact congrArg _ (ih fun q hq => h q (List.mem_cons_of_mem p hq))

theorem jsMapSet_of_get_eq (m : List (String × α)) (k : String) (v : α)
    (h : jsMapGet m k = some v) : jsMapSet m k v = m := by
  induction m with
  | nil => simp [jsMapGet] at h
  | cons p rest ih =>
    by_cases hp : p.1 = k
    · simp only [jsMapGet, if_pos hp] at h
      injection h with hv
      rw [show jsMapSet (p :: rest) k v = if p.1 = k then (k, v) :: rest
          else p :: jsMapSet rest k v from rfl, if_pos hp, ← hp, ← hv]
    · simp only [jsMapGet, if_neg hp] at h
      rw [show jsMapSet (p :: rest) k v = if p.1 = k then (k, v) :: rest
          else p :: jsMapSet rest k v from rfl, if_neg hp, ih h]

theorem removeMember_eq_self (ms : List Member) (c : String)
    (h : ∀ m ∈ ms, m.socketId ≠ c) : removeMember ms c = ms := by
  induction ms with
  | nil => rfl
  | cons m rest ih =>
    have hm := h m (List.mem_cons_self m rest)
    simp only [removeMember, if_neg hm]
    exact congrArg _ (ih fun q hq => h q (List.mem_cons_of_mem m hq))

theorem countMember_eq_zero (ms : List Member) (c : String)
    (h : ∀ m ∈ ms, m.socketId ≠ c) : countMember ms c = 0 := by
  induction ms with
  | nil => rfl
  | cons m rest ih =>
    have hm := h m (List.mem_cons_self m rest)
    simp only [countMember, if_neg hm, Nat.zero_add]
    exact ih fun q hq => h q (List.mem_cons_of_mem m hq)

theorem sweepRooms_eq_self (rl : List (String × List Member)) (c : String)
    (h : ∀ p ∈ rl, ∀ m ∈ p.2, m.socketId ≠ c) : sweepRooms rl c = rl := by
  induction rl with
  | nil => rfl
  | cons p rest ih =>
    have hp := h p (List.mem_cons_self p rest)
    have hstep : sweepRooms (p :: rest) c
        = (p.1, removeMember p.2 c) :: sweepRooms rest c := rfl
    rw [hstep, removeMember_eq_self p.2 c hp,
      ih fun q hq => h q (List.mem_cons_of_mem p hq)]

/-- A register operation of a replayed sequence. -/
structure RegOp where
  userId : String
  username : String
  socketId : String
deriving DecidableEq, Repr

/-- The registry row a register operation writes. -/
def RegOp.toUser (r : RegOp) : User := ⟨r.userId, r.username, r.socketId⟩

/-- Replay a sequence of `register-user` messages through `registerUser`. -/
def applyRegs (st : ServerState) : List RegOp → ServerState
  | [] => st
  | r :: rest => applyRegs (registerUser st r.socketId r.userId r.username).1 rest

/-- Stated from the spec's words: the most recent registration of a
userId within a sequence (later operations win). -/
def mostRecentRegistration (ops : List RegOp) (u : String) : Option RegOp :=
  match ops with
  | [] => none
  | r :: rest =>
    match mostRecentRegistration rest u with
    | some r' => some r'
    | none => if r.userId = u then some r else none

/-- `resolve`: the connection currently representing a userId,
`users.get(userId).socketId`. -/
def resolve (st : ServerState) (u : String) : Option String :=
  (jsMapGet st.users u).map User.socketId

/-- Replay a sequence of `register-user` messages through the array/Redis
variant's handler. -/
def applyRegsArr (users : List UserA) : List RegOp → List UserA
  | [] => users
  | r :: rest => applyRegsArr (registerArr users r.socketId r.userId r.username) rest

/-- `resolve` for the array variant: the socket id of the first row with
the given id. -/
def resolveArr (users : List UserA) (u : String) : Option String :=
  (findUserA users u).map UserA.socketId

/-- A presence operation: a registration or a transport disconnect. -/
inductive PresenceOp where
  | reg (userId username socketId : String)
  | disc (socketId : String)
deriving DecidableEq, Repr

/-- Replay presence operations through the `index.js` handlers. -/
def applyPresenceOps (st : ServerState) : List PresenceOp → ServerState
  | [] => st
  | PresenceOp.reg u n c :: rest =>
      applyPresenceOps (registerUser st c u n).1 rest
  | PresenceOp.disc c :: rest =>
      applyPresenceOps (disconnect_A st c).1 rest

/-- Stated from the claim's words: any two registry rows carrying the
same connectionId belong to the same userId. -/
def connUnique (st : ServerState) : Prop :=
  ∀ p ∈ st.users, ∀ q ∈ st.users, p.2.socketId = q.2.socketId → p.1 = q.1

instance connUnique.dec (st : ServerState) : Decidable (connUnique st) :=
  inferInstanceAs (Decidable (∀ p ∈ st.users, ∀ q ∈ st.users,
    p.2.socketId = q.2.socketId → p.1 = q.1))

theorem sweepEvents_eq_nil (rl : List (String × List Member)) (c : String)
    (h : ∀ p ∈ rl, ∀ m ∈ p.2, m.socketId ≠ c) : sweepEvents rl c = [] := by
  induction rl with
  | nil => rfl
  | cons p rest ih =>
    have hp := h p (List.mem_cons_self p rest)
    have hstep : sweepEvents (p :: rest) c
        = List.replicate (countMember p.2 c)
            (Dest.roomExceptSender p.1 c, Event.userLeft c)
            ++ sweepEvents rest c := rfl
    rw [hstep, countMember_eq_zero p.2 c hp,
      ih fun q hq => h q (List.mem_cons_of_mem p hq)]
    rfl

/-! ### Replay lemmas for the register handlers -/

theorem applyRegs_users_get (ops : List RegOp) (st : ServerState) (u : String) :
    jsMapGet (applyRegs st ops).users u
      = match mostRecentRegistration ops u with
        | some r => some r.toUser
        | none => jsMapGet st.users u := by
  induction ops generalizing st with
  | nil => rfl
  | cons r rest ih =>
    have hstep : applyRegs st (r :: rest)
        = applyRegs (registerUser st r.socketId r.userId r.username).1 rest := rfl
    rw [hstep, ih]
    have husers : (registerUser st r.socketId r.userId r.username).1.users
        = jsMapSet st.users r.userId r.toUser := rfl
    cases hmr : mostRecentRegistration rest u with
    | some r' => simp [mostRecentRegistration, hmr]
    | none =>
      simp only [mostRecentRegistration, hmr, husers]
      by_cases hu : r.userId = u
      · subst hu
        simp [jsMapGet_set_self]
      · simp [hu, jsMapGet_set_ne st.users r.userId u r.toUser (Ne.symm hu)]

theorem applyRegs_keys_nodup (ops : List RegOp) (st : ServerState)
    (h : (jsMapKeys st.users).Nodup) :
    (jsMapKeys (applyRegs st ops).users).Nodup := by
  induction ops generalizing st with
  | nil => exact h
  | cons r rest ih =>
    exact ih _ (jsMapKeys_set_nodup st.users r.userId r.toUser h)

theorem idsA_setSocketFirst (users : List UserA) (u c : String) :
    (setSocketFirst users u c).map UserA.id = users.map UserA.id := by
  induction users with
  | nil => rfl
  | cons x rest ih =>
    by_cases hx : x.id = u
    · simp [setSocketFirst, hx]
    · simp [setSocketFirst, hx, ih]

theorem findUserA_setSocketFirst_self (users : List UserA) (u c : String)
    (x : UserA) (hfind : findUserA users u = some x) :
    findUserA (setSocketFirst users u c) u = some { x with socketId := c } := by
  induction users with
  | nil => simp [findUserA] at hfind
  | cons y rest ih =>
    by_cases hy : y.id = u
    · simp only [findUserA, if_pos hy] at hfind
      injection hfind with hx
      subst hx
      simp [setSocketFirst, findUserA, hy]
    · simp only [findUserA, if_neg hy] at hfind
      simp [setSocketFirst, findUserA, hy, ih hfind]

theorem findUserA_setSocketFirst_ne (users : List UserA) (u u' c : String)
    (h : u' ≠ u) :
    findUserA (setSocketFirst users u c) u' = findUserA users u' := by
  induction users with
  | nil => rfl
  | cons x rest ih =>
    have hne : ¬ u = u' := fun e => h e.symm
    by_cases hx : x.id = u
    · have hxu' : ¬ x.id = u' := fun e => h (e.symm.trans hx)
      simp [setSocketFirst, findUserA, hx, hxu', hne, h]
    · by_cases hx' : x.id = u'
      · simp [setSocketFirst, findUserA, hx, hx', hne, h]
      · simp [setSocketFirst, findUserA, hx, hx', hne, h, ih]

theorem findUserA_append_ne (users : List UserA) (x : UserA) (u' : String)
    (h : ¬ x.id = u') :
    findUserA (users ++ [x]) u' = findUserA users u' := by
  induction users with
  | nil => simp [findUserA, h]
  | cons y rest ih =>
    by_cases hy : y.id = u'
    · simp [findUserA, hy]
    · simp [findUserA, hy, ih]

theorem findUserA_append_self (users : List UserA) (x : UserA)
    (h : findUserA users x.id = none) :
    findUserA (users ++ [x]) x.id = some x := by
  induction users with
  | nil => simp [findUserA]
  | cons y rest ih =>
    by_cases hy : y.id = x.id
    · simp [findUserA, hy] at h
    · simp only [List.cons_append, findUserA, if_neg hy] at h ⊢
      exact ih h

theorem notMem_idsA_of_find_none (users : List UserA) (u : String)
    (h : findUserA users u = none) : u ∉ users.map UserA.id := by
  induction users with
  | nil => simp
  | cons y rest ih =>
    by_cases hy : y.id = u
    · simp [findUserA, hy] at h
    · simp only [findUserA, if_neg hy] at h
      rw [List.map_cons]
      intro hmem
      rcases List.mem_cons.mp hmem with h1 | h2
      · exact hy h1.symm
      · exact ih h h2

theorem applyRegsArr_find (ops : List RegOp) (users : List UserA) (u : String) :
    (findUserA (applyRegsArr users ops) u).map UserA.socketId
      = match mostRecentRegistration ops u with
        | some r => some r.socketId
        | none => (findUserA users u).map UserA.socketId := by
  induction ops generalizing users with
  | nil => rfl
  | cons r rest ih =>
    have hstep : applyRegsArr users (r :: rest)
        = applyRegsArr (registerArr users r.socketId r.userId r.username) rest := rfl
    rw [hstep, ih]
    cases hmr : mostRecentRegistration rest u with
    | some r' => simp [mostRecentRegistration, hmr]
    | none =>
      simp only [mostRecentRegistration, hmr]
      cases hfind : findUserA users r.userId with
      | some x =>
        have hreg : registerArr users r.socketId r.userId r.username
            = setSocketFirst users r.userId r.socketId := by
          simp [registerArr, hfind]
        by_cases hu : r.userId = u
        · subst hu
          rw [hreg, findUserA_setSocketFirst_self users r.userId r.socketId x hfind]
          simp
        · rw [hreg, findUserA_setSocketFirst_ne users r.userId u r.socketId
            (Ne.symm hu)]
          simp [hu]
      | none =>
        have hreg : registerArr users r.socketId r.userId r.username
            = users ++ [⟨r.userId, r.username, r.socketId⟩] := by
          simp [registerArr, hfind]
        by_cases hu : r.userId = u
        · subst hu
          rw [hreg, findUserA_append_self users ⟨r.userId, r.username, r.socketId⟩
            hfind]
          simp
        · rw [hreg, findUserA_append_ne users ⟨r.userId, r.username, r.socketId⟩ u hu]
          simp [hu]

theorem applyRegsArr_ids_nodup (ops : List RegOp) (users : List UserA)
    (h : (users.map UserA.id).Nodup) :
    ((applyRegsArr users ops).map UserA.id).Nodup := by
  induction ops generalizing users with
  | nil => exact h
  | cons r rest ih =>
    refine ih _ ?_
    cases hfind : findUserA users r.userId with
    | some x =>
      have hreg : registerArr users r.socketId r.userId r.username
          = setSocketFirst users r.userId r.socketId := by
        simp [registerArr, hfind]
      rw [hreg, idsA_setSocketFirst]
      exact h
    | none =>
      have hreg : registerArr users r.socketId r.userId r.username
          = users ++ [⟨r.userId, r.username, r.socketId⟩] := by
        simp [registerArr, hfind]
      rw [hreg, List.map_append]
      simp only [List.nodup_append, List.map_cons, List.map_nil]
      exact ⟨h, List.nodup_singleton _,
        fun a ha hb => by
          rcases List.mem_singleton.mp hb with rfl
          exact notMem_idsA_of_find_none users r.userId hfind ha⟩

theorem disconnect_A_users_nodup (st : ServerState) (c : String)
    (h1 : (jsMapKeys st.users).Nodup) :
    (jsMapKeys (disconnect_A st c).1.users).Nodup := by
  have husers : (disconnect_A st c).1.users
      = match jsMapGet st.socketToUser c with
        | some userId =>
          if userId = "" then st.users
          else
            match jsMapGet st.users userId with
            | some _ => jsMapDelete st.users userId
            | none => st.users
        | none => st.users := rfl
  rw [husers]
  cases jsMapGet st.socketToUser c with
  | none => exact h1
  | some uid =>
    by_cases hu : uid = ""
    · simp only [if_pos hu]
      exact h1
    · simp only [if_neg hu]
      cases jsMapGet st.users uid with
      | none => exact h1
      | some _ => exact jsMapKeys_delete_nodup st.users uid h1

theorem applyPresenceOps_nodup (ops : List PresenceOp) (st : ServerState)
    (h1 : (jsMapKeys st.users).Nodup) (h2 : (jsMapKeys st.socketToUser).Nodup) :
    (jsMapKeys (applyPresenceOps st ops).users).Nodup ∧
    (jsMapKeys (applyPresenceOps st ops).socketToUser).Nodup := by
  induction ops generalizing st with
  | nil => exact ⟨h1, h2⟩
  | cons op rest ih =>
    cases op with
    | reg u n c =>
      exact ih _ (jsMapKeys_set_nodup st.users u ⟨u, n, c⟩ h1)
        (jsMapKeys_set_nodup st.socketToUser c u h2)
    | disc c =>
      exact ih _ (disconnect_A_users_nodup st c h1)
        (jsMapKeys_delete_nodup st.socketToUser c h2)

/-! ### The claims -/

/-- Claim C1, counterexample: a `call-user` for the unregistered target
"ghost" whose `callerInfo` is absent makes the validated variant reply
with a single `call-failed` whose payload does not include the requested
`targetUserId` (its target field is `none`, not `some "ghost"`), so the
claim's universal statement fails on that handler. -/
theorem C1_counterexample :
    callUser_B ServerState.empty "c1" "ghost" none "sdp-offer"
      = (ServerState.empty,
          [(Dest.toConn "c1",
              Event.callFailed "Invalid caller information." none)])
    ∧ Event.callFailed "Invalid caller information." none
        ≠ Event.callFailed "Invalid caller information." (some "ghost") := by
  decide

/-- Claim C1 (amended): for every `call-user` message carrying a
callerInfo object whose targetUserId is not in the registry, the
unvalidated handler emits exactly one `call-failed` — addressed to the
calling connection and to nobody else — carrying the requested
targetUserId, with the state unchanged (with callerInfo entirely absent
it instead throws on its first logging statement and emits nothing);
the validated handler does the same whenever its callerInfo guard
passes. -/
theorem C1_target_not_found_amended (st : ServerState)
    (c target : String) (ci : Option CallerInfo) (offer : String)
    (habs : jsMapGet st.users target = none) :
    (∀ ci0 : CallerInfo, ci = some ci0 →
       callUser_A st c target ci offer
         = some (st, [(Dest.toConn c,
             Event.callFailed "User not found or offline" (some target))]))
    ∧ (validCallerInfo ci = true →
        callUser_B st c target ci offer
          = (st, [(Dest.toConn c,
              Event.callFailed "Target user not found or offline."
                (some target))])) := by
  constructor
  · intro ci0 hci
    subst hci
    simp [callUser_A, habs]
  · intro hv
    simp [callUser_B, hv, habs]

/-- Claim C1 witness: the amended theorem at the empty registry, caller
"c1", target "ghost" and a present, valid callerInfo. -/
theorem C1_target_not_found_amended_witness :
    callUser_A ServerState.empty "c1" "ghost" (some ⟨"u1", "A"⟩) "sdp"
      = some (ServerState.empty, [(Dest.toConn "c1",
          Event.callFailed "User not found or offline" (some "ghost"))])
    ∧ callUser_B ServerState.empty "c1" "ghost" (some ⟨"u1", "A"⟩) "sdp"
      = (ServerState.empty, [(Dest.toConn "c1",
          Event.callFailed "Target user not found or offline."
            (some "ghost"))]) :=
  ⟨(C1_target_not_found_amended ServerState.empty "c1" "ghost"
      (some ⟨"u1", "A"⟩) "sdp" (by decide)).1 ⟨"u1", "A"⟩ rfl,
   (C1_target_not_found_amended ServerState.empty "c1" "ghost"
      (some ⟨"u1", "A"⟩) "sdp" (by decide)).2 (by decide)⟩

/-- Claim C2: replaying any finite sequence of register operations from
the empty registry leaves exactly one row per distinct userId, each
carrying the data of that userId's most recent registration (in the
array/Redis variant, its socket id), in both the Map-keyed handler and
the array/Redis variant; in particular register("u1","Alice",c1) then
register("u1","Alice2",c2) resolves "u1" to c2, never c1. -/
theorem C2_register_last_write_wins :
    (∀ ops : List RegOp,
       (jsMapKeys (applyRegs ServerState.empty ops).users).Nodup ∧
       ∀ u, jsMapGet (applyRegs ServerState.empty ops).users u
         = (mostRecentRegistration ops u).map RegOp.toUser) ∧
    (∀ ops : List RegOp,
       ((applyRegsArr [] ops).map UserA.id).Nodup ∧
       ∀ u, resolveArr (applyRegsArr [] ops) u
         = (mostRecentRegistration ops u).map RegOp.socketId) ∧
    (resolve (applyRegs ServerState.empty
        [⟨"u1", "Alice", "c1"⟩, ⟨"u1", "Alice2", "c2"⟩]) "u1" = some "c2" ∧
     resolveArr (applyRegsArr []
        [⟨"u1", "Alice", "c1"⟩, ⟨"u1", "Alice2", "c2"⟩]) "u1" = some "c2") := by
  refine ⟨fun ops => ⟨applyRegs_keys_nodup ops ServerState.empty
      List.nodup_nil, fun u => ?_⟩,
    fun ops => ⟨applyRegsArr_ids_nodup ops [] List.nodup_nil, fun u => ?_⟩,
    by decide, by decide⟩
  · rw [applyRegs_users_get]
    cases mostRecentRegistration ops u <;> rfl
  · show (findUserA (applyRegsArr [] ops) u).map UserA.socketId = _
    rw [applyRegsArr_find]
    cases mostRecentRegistration ops u <;> rfl

/-- Claim C3, counterexample: the single connection "c1" registering as
"u1" and then as "u2" without disconnecting reaches a state holding two
live rows for distinct userIds that both carry connectionId "c1",
refuting the claimed invariant. -/
theorem C3_counterexample :
    (applyPresenceOps ServerState.empty
        [PresenceOp.reg "u1" "A" "c1", PresenceOp.reg "u2" "B" "c1"]).users
      = [("u1", ⟨"u1", "A", "c1"⟩), ("u2", ⟨"u2", "B", "c1"⟩)]
    ∧ ¬ connUnique (applyPresenceOps ServerState.empty
        [PresenceOp.reg "u1" "A" "c1", PresenceOp.reg "u2" "B" "c1"]) := by
  decide

/-- Claim C3 (amended): after every sequence of register and disconnect
operations from the empty state, the registry holds at most one live row
per userId, and the reverse mapping binds each connectionId to at most
one userId; two distinct userIds' rows may nevertheless carry the same
connectionId, as the counterexample shows. -/
theorem C3_registry_keys_unique_amended (ops : List PresenceOp) :
    (jsMapKeys (applyPresenceOps ServerState.empty ops).users).Nodup ∧
    (jsMapKeys (applyPresenceOps ServerState.empty ops).socketToUser).Nodup :=
  applyPresenceOps_nodup ops ServerState.empty List.nodup_nil List.nodup_nil

/-- Claim C4, counterexample: a registration with an empty userId is not
rejected: the registry gains a row keyed "", the reverse mapping is
recorded, and a users-updated broadcast is emitted — no
InvalidRegistration path exists in the code. -/
theorem C4_counterexample :
    registerUser ServerState.empty "c1" "" "Alice"
      = (⟨[("", ⟨"", "Alice", "c1"⟩)], [("c1", "")], []⟩,
         [(Dest.broadcast, Event.usersUpdated [⟨"", "Alice", "c1"⟩])])
    ∧ (registerUser ServerState.empty "c1" "" "Alice").1
        ≠ ServerState.empty := by
  decide

/-- Claim C4 (amended): every register operation succeeds regardless of
the userId (even empty) and of the username content: the row is
upserted, the reverse mapping recorded, and exactly one users-updated
broadcast of the fresh snapshot is emitted; no failure reply exists. -/
theorem C4_register_always_succeeds_amended (st : ServerState)
    (c uid un : String) :
    jsMapGet (registerUser st c uid un).1.users uid = some ⟨uid, un, c⟩ ∧
    jsMapGet (registerUser st c uid un).1.socketToUser c = some uid ∧
    (registerUser st c uid un).2
      = [(Dest.broadcast,
           Event.usersUpdated (snapshot (registerUser st c uid un).1))] :=
  ⟨jsMapGet_set_self st.users uid ⟨uid, un, c⟩,
   jsMapGet_set_self st.socketToUser c uid, rfl⟩

/-- Claim C5, counterexample: with user "t" registered on "c2", a
call-user from "c1" whose callerInfo object is present but lacks a
username (empty, hence falsy for the validated variant's guard) is not
rejected by the `index.js` handler: the registry is resolved and
incoming-call is relayed to "c2" — no call-failed, and an event reaches
a connection other than the caller — refuting the claim for the
unvalidated handler. -/
theorem C5_counterexample :
    callUser_A (registerUser ServerState.empty "c2" "t" "Bob").1
        "c1" "t" (some ⟨"u1", ""⟩) "sdp"
      = some ((registerUser ServerState.empty "c2" "t" "Bob").1,
          [(Dest.toConn "c2",
              Event.incomingCall (some ⟨"u1", ""⟩) "sdp" "c1"),
           (Dest.toConn "c1", Event.callInitiated "Bob" "t")])
    ∧ validCallerInfo (some ⟨"u1", ""⟩) = false := by
  decide

/-- Claim C5 (amended): in the validated variant a call-user whose
callerInfo is absent or lacks a non-empty id or username yields exactly
one call-failed delivered to the caller only, leaves the state
unchanged, and its reply is the same for every registry — hence no
resolution of targetUserId is performed; the `index.js` variant performs
no such validation: with the callerInfo object present it resolves and
relays regardless of its fields (see the counterexample), and with
callerInfo entirely absent it throws before any lookup, emitting
nothing. -/
theorem C5_invalid_caller_amended (st : ServerState)
    (c target : String) (ci : Option CallerInfo) (offer : String)
    (hinv : validCallerInfo ci = false) :
    callUser_B st c target ci offer
      = (st, [(Dest.toConn c,
          Event.callFailed "Invalid caller information." none)])
    ∧ callUser_A st c target none offer = none := by
  constructor
  · simp [callUser_B, hinv]
  · rfl

/-- Claim C5 witness: the amended theorem at a registry where the target
exists, caller "c1" and an absent callerInfo. -/
theorem C5_invalid_caller_amended_witness :
    validCallerInfo none = false ∧
    (callUser_B (registerUser ServerState.empty "c2" "t" "Bob").1
        "c1" "t" none "sdp"
      = ((registerUser ServerState.empty "c2" "t" "Bob").1,
         [(Dest.toConn "c1",
            Event.callFailed "Invalid caller information." none)])
     ∧ callUser_A (registerUser ServerState.empty "c2" "t" "Bob").1
         "c1" "t" none "sdp" = none) :=
  ⟨rfl, C5_invalid_caller_amended _ "c1" "t" none "sdp" rfl⟩

/-- Claim C6 (code bug in the source): because room membership is a JS
Set of freshly allocated objects, the same connection joining the same
room twice stores two duplicate membership entries, violating the
at-most-one-entry-per-connectionId invariant; a single leave-room then
sweeps out both entries. -/
theorem C6_duplicate_membership_bug :
    jsMapGet ((joinRoom (joinRoom ServerState.empty "c1" "r" "info").1
        "c1" "r" "info").1).rooms "r"
      = some [⟨"c1", "info"⟩, ⟨"c1", "info"⟩]
    ∧ jsMapGet ((leaveRoom (joinRoom (joinRoom ServerState.empty "c1" "r"
        "info").1 "c1" "r" "info").1 "c1" "r").1).rooms "r" = some [] := by
  decide

/-- Claim C7, counterexample: room "r" exists with sole member "c2"; a
leave-room from "c1", which never joined, still emits a user-left
carrying "c1" to the room — not the zero events the claim requires when
no membership entry was removed. -/
theorem C7_counterexample :
    leaveRoom (joinRoom ServerState.empty "c2" "r" "info").1 "c1" "r"
      = ((joinRoom ServerState.empty "c2" "r" "info").1,
         [(Dest.roomExceptSender "r" "c1", Event.userLeft "c1")]) := by
  decide

/-- Claim C7 (amended): leave-room emits exactly one user-left to the
room's remaining members whenever the room key exists — even when the
leaver holds no membership entry, in which case the state is unchanged —
and it removes every membership entry of the leaver; only when the room
does not exist is the operation a no-op producing zero events. -/
theorem C7_leave_room_amended (st : ServerState) (c r : String) :
    (jsMapGet st.rooms r = none → leaveRoom st c r = (st, [])) ∧
    (∀ ms, jsMapGet st.rooms r = some ms →
       (leaveRoom st c r).2
           = [(Dest.roomExceptSender r c, Event.userLeft c)] ∧
       (leaveRoom st c r).1.rooms
           = jsMapSet st.rooms r (removeMember ms c)) ∧
    (∀ ms, jsMapGet st.rooms r = some ms → (∀ m ∈ ms, m.socketId ≠ c) →
       leaveRoom st c r
         = (st, [(Dest.roomExceptSender r c, Event.userLeft c)])) := by
  refine ⟨fun h => ?_, fun ms h => ?_, fun ms h hnm => ?_⟩
  · simp [leaveRoom, h]
  · simp [leaveRoom, h]
  · have hrm : removeMember ms c = ms := removeMember_eq_self ms c hnm
    simp [leaveRoom, h, hrm, jsMapSet_of_get_eq st.rooms r ms h]

/-- Claim C7 witness: the amended theorem at a state without the room
(no-op, zero events) and at a state where room "r" exists with sole
member "c2" while "c1" is no member (one user-left still emitted, state
kept). -/
theorem C7_leave_room_amended_witness :
    leaveRoom ServerState.empty "c1" "r" = (ServerState.empty, []) ∧
    leaveRoom (joinRoom ServerState.empty "c2" "r" "info").1 "c1" "r"
      = ((joinRoom ServerState.empty "c2" "r" "info").1,
         [(Dest.roomExceptSender "r" "c1", Event.userLeft "c1")]) :=
  ⟨(C7_leave_room_amended ServerState.empty "c1" "r").1 rfl,
   (C7_leave_room_amended (joinRoom ServerState.empty "c2" "r" "info").1
      "c1" "r").2.2 [⟨"c2", "info"⟩] (by decide) (by decide)⟩

/-- Claim C8, counterexample: disconnecting a connection that was never
registered still broadcasts users-updated — the final io.emit of both
disconnect handlers is unconditional — producing one event instead of
the zero events the claim requires. -/
theorem C8_counterexample :
    disconnect_A ServerState.empty "c1"
      = (ServerState.empty, [(Dest.broadcast, Event.usersUpdated [])])
    ∧ disconnect_B ServerState.empty "c1"
      = (ServerState.empty, [(Dest.broadcast, Event.usersUpdated [])]) := by
  decide

/-- Claim C8 (amended): disconnecting a connection that was never
registered and belongs to no room (equally, a second disconnect of an
already-torn-down connection) leaves the registry, the reverse mapping
and every room membership unchanged and emits no user-left event, but
both disconnect handlers still broadcast exactly one users-updated
event carrying the unchanged snapshot. -/
theorem C8_disconnect_amended (st : ServerState) (c : String)
    (hreg : ∀ p ∈ st.socketToUser, p.1 ≠ c)
    (hroom : ∀ p ∈ st.rooms, ∀ m ∈ p.2, m.socketId ≠ c) :
    disconnect_A st c
      = (st, [(Dest.broadcast, Event.usersUpdated (snapshot st))])
    ∧ disconnect_B st c
      = (st, [(Dest.broadcast, Event.usersUpdated (snapshot st))]) := by
  have hget : jsMapGet st.socketToUser c = none := jsMapGet_eq_none _ _ hreg
  have hdel : jsMapDelete st.socketToUser c = st.socketToUser :=
    jsMapDelete_eq_self _ _ hreg
  have hsweep : sweepRooms st.rooms c = st.rooms := sweepRooms_eq_self _ _ hroom
  have hev : sweepEvents st.rooms c = [] := sweepEvents_eq_nil _ _ hroom
  constructor
  · simp [disconnect_A, hget, hdel, hsweep, hev, snapshot]
  · simp [disconnect_B, hget, hsweep, hev, snapshot]

/-- The state claim C8's witness disconnects from: user "u9" registered
on connection "c9", which is also the sole member of room "r". -/
def stC8 : ServerState :=
  (joinRoom (registerUser ServerState.empty "c9" "u9" "Bob").1 "c9" "r" "info").1

/-- Claim C8 witness: the amended theorem at the populated state `stC8`
and the unrelated, never-registered connection "c1". -/
theorem C8_disconnect_amended_witness :
    disconnect_A stC8 "c1"
      = (stC8, [(Dest.broadcast, Event.usersUpdated (snapshot stC8))])
    ∧ disconnect_B stC8 "c1"
      = (stC8, [(Dest.broadcast, Event.usersUpdated (snapshot stC8))]) :=
  C8_disconnect_amended stC8 "c1" (by decide) (by decide)

/-- Claim C9, counterexample: room-offer does carry the sender's socket
id, but the room-answer and room-ice-candidate emissions are identical
for two different senders — their payloads carry no sender identifier —
refuting the claim for two of the three relays. -/
theorem C9_counterexample :
    roomAnswer ServerState.empty "c1" "c2" "sdp-answer"
      = roomAnswer ServerState.empty "cX" "c2" "sdp-answer"
    ∧ roomIceCandidate ServerState.empty "c1" "c2" "cand"
      = roomIceCandidate ServerState.empty "cX" "c2" "cand"
    ∧ roomOffer ServerState.empty "c1" "c2" "sdp-offer"
      ≠ roomOffer ServerState.empty "cX" "c2" "sdp-offer" := by
  decide

/-- Claim C9 (amended): each room relay delivers to the explicit target
connection a single event of the same name carrying the relayed payload
unchanged; roomOffer additionally carries the sender's connectionId as
callerSocketId, while roomAnswer and roomIceCandidate carry no sender
identifier. -/
theorem C9_room_relays_amended (st : ServerState) (c t payload : String) :
    roomOffer st c t payload
      = (st, [(Dest.toConn t, Event.roomOfferEv payload c)]) ∧
    roomAnswer st c t payload
      = (st, [(Dest.toConn t, Event.roomAnswerEv payload)]) ∧
    roomIceCandidate st c t payload
      = (st, [(Dest.toConn t, Event.roomIceCandidateEv payload)]) :=
  ⟨rfl, rfl, rfl⟩

/-- Claim C10: re-registration leaves a stale reverse mapping — after
register(u, c1) then register(u, c2) on a distinct new connection, the
reverse mapping still binds c1 to u, and a subsequent disconnect of the
old connection c1 deletes u's current row (the one bound to c2) and
broadcasts a users-updated snapshot that no longer contains u, although
u's live connection c2 never disconnected. -/
theorem C10_stale_reverse_mapping (u un1 un2 c1 c2 : String)
    (hc : c1 ≠ c2) (hu : u ≠ "") :
    jsMapGet ((registerUser (registerUser ServerState.empty c1 u un1).1
        c2 u un2).1).socketToUser c1 = some u
    ∧ jsMapGet ((disconnect_A (registerUser (registerUser ServerState.empty
        c1 u un1).1 c2 u un2).1 c1).1).users u = none
    ∧ (disconnect_A (registerUser (registerUser ServerState.empty
        c1 u un1).1 c2 u un2).1 c1).2
      = [(Dest.broadcast, Event.usersUpdated [])] := by
  have hc2 : ¬ c2 = c1 := fun e => hc e.symm
  simp [registerUser, disconnect_A, jsMapSet, jsMapGet, jsMapDelete,
    sweepRooms, sweepEvents, snapshot, ServerState.empty, hc, hc2, hu]

/-- Claim C10 witness: the theorem at u = "u1", c1 = "cA", c2 = "cB". -/
theorem C10_stale_reverse_mapping_witness :
    jsMapGet ((registerUser (registerUser ServerState.empty "cA" "u1" "Al").1
        "cB" "u1" "Al2").1).socketToUser "cA" = some "u1"
    ∧ jsMapGet ((disconnect_A (registerUser (registerUser ServerState.empty
        "cA" "u1" "Al").1 "cB" "u1" "Al2").1 "cA").1).users "u1" = none
    ∧ (disconnect_A (registerUser (registerUser ServerState.empty
        "cA" "u1" "Al").1 "cB" "u1" "Al2").1 "cA").2
      = [(Dest.broadcast, Event.usersUpdated [])] :=
  C10_stale_reverse_mapping "u1" "Al" "Al2" "cA" "cB" (by decide) (by decide)

end RTC
